import Mathlib

/-!
# The workflow executor (`pkg/execution/executor/executor.go`)

A shallow embedding of `NewExecutor`, `Execute`, `run`, `executeAction`,
`availabileChildren` and `canTraverseEdge`, and the properties of the
executor that follow from that code.

Conventions of the embedding.

* A Go function returning `(value, error)` returns a pair whose second
  component is `Option GoError` (`none` is the nil error).  Pointers and
  interface values that may be nil are `Option`s.
* Dereferencing nil is the outcome `Outcome.panicked`.
* The collaborators (state manager, action loader, drivers) are functions
  over an arbitrary collaborator state `σ`; the executor threads that state
  through its calls in program order and keeps a log of every call it makes.
* `context.Context` is handed to the collaborators untouched and is never
  inspected by the executor, so it is not represented.
-/

namespace Executor

/-! ## Values of the imported packages -/

/-- Modelled from the spec: `state.Identifier`, the key of one running
workflow instance; its declaration is outside the executor package. -/
structure Identifier where
  WorkflowID : String
  RunID : String
  deriving DecidableEq, Repr

/-- Modelled from the spec: `inngest.Step`, a node with a client-visible
identifier and a reference (source descriptor and version) to an action. -/
structure Step where
  ClientID : String
  DSN : String
  Version : Option Nat
  deriving DecidableEq, Repr

/-- Modelled from the spec: `inngest.Edge`, a declared transition from the
outgoing node to the incoming node. -/
structure Edge where
  Outgoing : String
  Incoming : String
  deriving DecidableEq, Repr

/-- Modelled from the spec: `inngest.Workflow`, the steps and the edges of
a workflow, both in declaration order. -/
structure Workflow where
  Steps : List Step
  Edges : List Edge
  deriving DecidableEq, Repr

/-- A vertex of the workflow graph; `ID` is the result of `ID()`. -/
structure Vertex where
  ID : String
  deriving DecidableEq, Repr

/-- Modelled from the spec: `inngest.GraphEdge`, an edge of the graph view
together with the workflow edge it was built from. -/
structure GraphEdge where
  Outgoing : Vertex
  Incoming : Vertex
  WorkflowEdge : Edge
  deriving DecidableEq, Repr

/-- The graph view returned by `inngest.NewGraph`; `From` lists the
outgoing edges of a node. -/
structure Graph where
  From : String → List GraphEdge

/-- The output payload of an action (`map[string]interface{}`). -/
abbrev Output := List (String × String)

/-- The value `driver.Response`: the outcome of one driver invocation. -/
structure Response (ε : Type) where
  Scheduled : Bool
  Output : Output
  Err : Option ε

/-- Go error values, as far as the executor builds or passes them on.
`new` is an error made without wrapping (`fmt.Errorf` with no `%w`),
`wrap pre cause post` is `fmt.Errorf` with a `%w` verb for `cause` between
the literal texts `pre` and `post`, `multierror` is `*multierror.Error`
and `response` is a `*driver.Response` used as an error. -/
inductive GoError where
  | new (msg : String)
  | wrap (pre : String) (cause : GoError) (post : String)
  | multierror (errs : List GoError)
  | response (r : Response GoError)

/-- The error `ErrRuntimeRegistered`. -/
def ErrRuntimeRegistered : GoError := .new "runtime is already registered"
/-- The error `ErrNoStateManager`. -/
def ErrNoStateManager : GoError := .new "no state manager provided"
/-- The error `ErrNoActionLoader`. -/
def ErrNoActionLoader : GoError := .new "no action loader provided"
/-- The error `ErrNoRuntimeDriver`. -/
def ErrNoRuntimeDriver : GoError := .new "runtime driver for action not found"

/-- The errors a `*multierror.Error` contributes when it is appended to
another one: its members; any other error contributes itself. -/
def GoError.flatten : GoError → List GoError
  | .multierror errs => errs
  | e => [e]

/-- The call `multierror.Append(err, serr)` of `go-multierror`, for one
non-nil `serr`. -/
def multierrorAppend (err : Option GoError) (serr : GoError) : GoError :=
  match err with
  | none => .multierror serr.flatten
  | some (.multierror errs) => .multierror (errs ++ serr.flatten)
  | some e => .multierror (e :: serr.flatten)

/-- The interface `state.State`: the record of one run. -/
structure State where
  Workflow : Workflow × Option GoError
  ActionComplete : String → Bool

/-- The action definition returned by the action loader; `RuntimeType` is
the result of `Runtime.RuntimeType()`. -/
structure ActionVersion where
  DSN : String
  RuntimeType : String
  deriving DecidableEq, Repr

/-! ## Collaborators -/

/-- The interface `state.Manager`, as far as the executor calls it.  The
state returned by the two save methods is discarded by the executor, so
only their error is kept. -/
structure Manager (σ : Type) where
  Load : Identifier → σ → (Option State × Option GoError) × σ
  SaveActionOutput : Identifier → String → Output → σ → Option GoError × σ
  SaveActionError : Identifier → String → GoError → σ → Option GoError × σ

/-- The interface `actionloader.ActionLoader`. -/
structure ActionLoader (σ : Type) where
  Load : String → Option Nat → σ → (Option ActionVersion × Option GoError) × σ

/-- The interface `driver.Driver`. -/
structure Driver (σ : Type) where
  RuntimeType : String
  Execute : Option State → ActionVersion → Step → σ →
    (Option (Response GoError) × Option GoError) × σ

/-- What the executor uses of package `inngest`: the name of the trigger
node and the graph builder.  Both are declared outside the executor
package and are parameters of the embedding. -/
structure Inngest where
  TriggerName : String
  NewGraph : Workflow → Graph × Option GoError

/-- The calls the executor makes to its collaborators.  A `Load` entry
also records what the state manager returned. -/
inductive Call where
  | Load (id : Identifier) (ret : Option State × Option GoError)
  | ActionLoad (dsn : String) (version : Option Nat)
  | DriverExecute (runtimeType : String) (step : Step)
  | SaveActionOutput (id : Identifier) (stepID : String) (output : Output)
  | SaveActionError (id : Identifier) (stepID : String) (err : GoError)

/-- Whether a call is one of the two writes to the state store. -/
def Call.isSave : Call → Bool
  | .SaveActionOutput _ _ _ => true
  | .SaveActionError _ _ _ => true
  | _ => false

/-- Whether a call invokes a driver. -/
def Call.isDriverExecute : Call → Bool
  | .DriverExecute _ _ => true
  | _ => false

/-- The collaborators' state together with the log of calls made so far,
oldest first. -/
structure World (σ : Type) where
  ext : σ
  log : List Call

/-- How a Go call ends: it returns a value or it panics. -/
inductive Outcome (α : Type) where
  | returned (a : α)
  | panicked

/-- The struct `executor`.  The registry holds non-nil drivers only:
registering a nil driver panics before the map is written. -/
structure executor (σ : Type) where
  sm : Option (Manager σ)
  al : Option (ActionLoader σ)
  runtimeDrivers : List (String × Driver σ)

/-- Lookup in the map `runtimeDrivers`. -/
def lookupDriver {σ : Type} (m : List (String × Driver σ)) (tag : String) : Option (Driver σ) :=
  match m with
  | [] => none
  | (k, d) :: rest => if k = tag then some d else lookupDriver rest tag

/-! ## Construction -/

/-- The three options of the package.  The arguments are interface values
and may be nil. -/
inductive ExecutorOpt (σ : Type) where
  | WithActionLoader (al : Option (ActionLoader σ))
  | WithStateManager (sm : Option (Manager σ))
  | WithRuntimeDrivers (drivers : List (Option (Driver σ)))

/-- The loop of `WithRuntimeDrivers`: each driver is registered under its
runtime type unless that type is taken.  Asking a nil driver for its
runtime type panics. -/
def registerDrivers {σ : Type} (e : executor σ) :
    List (Option (Driver σ)) → Outcome (executor σ × Option GoError)
  | [] => .returned (e, none)
  | none :: _ => .panicked
  | some d :: rest =>
    match lookupDriver e.runtimeDrivers d.RuntimeType with
    | some _ => .returned (e, some ErrRuntimeRegistered)
    | none =>
      registerDrivers { e with runtimeDrivers := (d.RuntimeType, d) :: e.runtimeDrivers } rest

/-- Applying one option to the executor under construction. -/
def ExecutorOpt.apply {σ : Type} (o : ExecutorOpt σ) (e : executor σ) :
    Outcome (executor σ × Option GoError) :=
  match o with
  | .WithActionLoader al => .returned ({ e with al := al }, none)
  | .WithStateManager sm => .returned ({ e with sm := sm }, none)
  | .WithRuntimeDrivers drivers => registerDrivers e drivers

/-- The loop over the options in `NewExecutor`, followed by its two
checks. -/
def applyOpts {σ : Type} (m : executor σ) :
    List (ExecutorOpt σ) → Outcome (Option (executor σ) × Option GoError)
  | [] =>
    if m.sm.isNone then .returned (none, some ErrNoStateManager)
    else if m.al.isNone then .returned (none, some ErrNoActionLoader)
    else .returned (some m, none)
  | o :: opts =>
    match o.apply m with
    | .panicked => .panicked
    | .returned (_, some err) => .returned (none, some err)
    | .returned (m', none) => applyOpts m' opts

/-- The function `NewExecutor`. -/
def NewExecutor {σ : Type} (opts : List (ExecutorOpt σ)) :
    Outcome (Option (executor σ) × Option GoError) :=
  applyOpts { sm := none, al := none, runtimeDrivers := [] } opts

/-! ## Calls to the collaborators -/

/-- The call `e.sm.Load(ctx, id)`, logged. -/
def callLoad {σ : Type} (sm : Manager σ) (id : Identifier) (w : World σ) :
    (Option State × Option GoError) × World σ :=
  let r := sm.Load id w.ext
  (r.1, { ext := r.2, log := w.log ++ [Call.Load id r.1] })

/-- The call `e.al.Load(ctx, action.DSN, action.Version)`, logged. -/
def callActionLoad {σ : Type} (al : ActionLoader σ) (dsn : String) (version : Option Nat)
    (w : World σ) : (Option ActionVersion × Option GoError) × World σ :=
  let r := al.Load dsn version w.ext
  (r.1, { ext := r.2, log := w.log ++ [Call.ActionLoad dsn version] })

/-- The call `d.Execute(ctx, state, *definition, *action)`, logged. -/
def callDriver {σ : Type} (d : Driver σ) (state : Option State) (definition : ActionVersion)
    (action : Step) (w : World σ) : (Option (Response GoError) × Option GoError) × World σ :=
  let r := d.Execute state definition action w.ext
  (r.1, { ext := r.2, log := w.log ++ [Call.DriverExecute d.RuntimeType action] })

/-- The call `e.sm.SaveActionOutput(ctx, id, stepID, output)`, logged. -/
def callSaveActionOutput {σ : Type} (sm : Manager σ) (id : Identifier) (stepID : String)
    (output : Output) (w : World σ) : Option GoError × World σ :=
  let r := sm.SaveActionOutput id stepID output w.ext
  (r.1, { ext := r.2, log := w.log ++ [Call.SaveActionOutput id stepID output] })

/-- The call `e.sm.SaveActionError(ctx, id, stepID, err)`, logged. -/
def callSaveActionError {σ : Type} (sm : Manager σ) (id : Identifier) (stepID : String)
    (err : GoError) (w : World σ) : Option GoError × World σ :=
  let r := sm.SaveActionError id stepID err w.ext
  (r.1, { ext := r.2, log := w.log ++ [Call.SaveActionError id stepID err] })

/-! ## Execution -/

/-- The method `executor.canTraverseEdge`. -/
def canTraverseEdge (pkg : Inngest) (state : Option State) (edge : GraphEdge) :
    Outcome (Bool × Option GoError) :=
  if edge.Outgoing.ID ≠ pkg.TriggerName then
    match state with
    | none => .panicked
    | some st =>
      if !st.ActionComplete edge.Outgoing.ID then .returned (false, none)
      else .returned (true, none)
  else .returned (true, none)

/-- The loop of `availabileChildren` over the outgoing edges; `future`
holds the edges collected so far. -/
def collectFuture (pkg : Inngest) (state : Option State) :
    List GraphEdge → List Edge → Outcome (List Edge × Option GoError)
  | [], future => .returned (future, none)
  | edge :: rest, future =>
    match canTraverseEdge pkg state edge with
    | .panicked => .panicked
    | .returned (_, some err) => .returned ([], some err)
    | .returned (ok, none) =>
      if !ok then collectFuture pkg state rest future
      else collectFuture pkg state rest (future ++ [edge.WorkflowEdge])

/-- The method `executor.availabileChildren`. -/
def availabileChildren {σ : Type} (pkg : Inngest) (e : executor σ) (wf : Workflow)
    (id : Identifier) (clientID : String) (_s : State) (w : World σ) :
    Outcome (List Edge × Option GoError) × World σ :=
  match pkg.NewGraph wf with
  | (_, some err) => (.returned ([], some err), w)
  | (g, none) =>
    let edges := g.From clientID
    if edges.length = 0 then (.returned ([], none), w)
    else
      match e.sm with
      | none => (.panicked, w)
      | some sm =>
        match callLoad sm id w with
        | ((_, some err), w1) =>
          (.returned ([], some (.wrap "error loading state: " err "")), w1)
        | ((state, none), w1) => (collectFuture pkg state edges [], w1)

/-- The method `executor.executeAction`. -/
def executeAction {σ : Type} (e : executor σ) (id : Identifier) (action : Step) (w : World σ) :
    Outcome (Option (Response GoError) × Option GoError) × World σ :=
  match e.al with
  | none => (.panicked, w)
  | some al =>
    match callActionLoad al action.DSN action.Version w with
    | ((_, some err), w1) =>
      (.returned (none, some (.wrap "error loading action: " err "")), w1)
    | ((none, none), w1) =>
      (.returned (none, some (.new ("no action returned: " ++ action.DSN))), w1)
    | ((some definition, none), w1) =>
      match lookupDriver e.runtimeDrivers definition.RuntimeType with
      | none =>
        (.returned (none, some (.wrap "" ErrNoRuntimeDriver
          (": " ++ "\x27" ++ definition.RuntimeType ++ "\x27"))), w1)
      | some d =>
        match e.sm with
        | none => (.panicked, w1)
        | some sm =>
          match callLoad sm id w1 with
          | ((_, some err), w2) =>
            (.returned (none, some (.wrap "error loading state: " err "")), w2)
          | ((state, none), w2) =>
            match callDriver d state definition action w2 with
            | ((_, some err), w3) =>
              (.returned (none, some (.wrap "error executing action: " err "")), w3)
            | ((none, none), w3) => (.panicked, w3)
            | ((some response, none), w3) =>
              if response.Scheduled then (.returned (some response, none), w3)
              else
                match callSaveActionOutput sm id action.ClientID response.Output w3 with
                | (serr, w4) =>
                  let err : Option GoError := serr.map (multierrorAppend none)
                  match response.Err with
                  | none => (.returned (some response, err), w4)
                  | some rerr =>
                    match callSaveActionError sm id action.ClientID rerr w4 with
                    | (none, w5) => (.returned (some response, err), w5)
                    | (some serr2, w5) =>
                      (.returned (some response, some (multierrorAppend err serr2)), w5)

/-- The method `executor.run`. -/
def run {σ : Type} (pkg : Inngest) (e : executor σ) (wf : Workflow) (id : Identifier)
    (clientID : String) (s : State) (w : World σ) :
    Outcome (List Edge × Option GoError) × World σ :=
  if clientID ≠ pkg.TriggerName then
    match wf.Steps.find? (fun s => s.ClientID = clientID) with
    | none => (.returned ([], some (.new ("unknown vertex: " ++ clientID))), w)
    | some step =>
      match executeAction e id step w with
      | (.panicked, w1) => (.panicked, w1)
      | (.returned (_, some err), w1) => (.returned ([], some err), w1)
      | (.returned (none, none), w1) => (.panicked, w1)
      | (.returned (some response, none), w1) =>
        if response.Err.isSome then (.returned ([], some (.response response)), w1)
        else if response.Scheduled then (.returned ([], none), w1)
        else availabileChildren pkg e wf id clientID s w1
  else availabileChildren pkg e wf id clientID s w

/-- The method `executor.Execute`. -/
def Execute {σ : Type} (pkg : Inngest) (e : executor σ) (id : Identifier) (frm : String)
    (w : World σ) : Outcome (List Edge × Option GoError) × World σ :=
  match e.sm with
  | none => (.panicked, w)
  | some sm =>
    match callLoad sm id w with
    | ((_, some err), w1) => (.returned ([], some err), w1)
    | ((none, none), w1) => (.panicked, w1)
    | ((some state, none), w1) =>
      match state.Workflow with
      | (_, some err) => (.returned ([], some err), w1)
      | (wf, none) =>
        match run pkg e wf id frm state w1 with
        | (.panicked, w2) => (.panicked, w2)
        | (.returned (_, some err), w2) => (.returned ([], some err), w2)
        | (.returned (next, none), w2) => (.returned (next, none), w2)

/-! ## The graph builder -/

/-- Modelled from the spec: the nodes of a workflow are its trigger and its
steps. -/
def knownNode (trigger : String) (wf : Workflow) (n : String) : Bool :=
  n = trigger || wf.Steps.any (fun s => s.ClientID = n)

/-- Modelled from the spec: `inngest.NewGraph` and `Graph.From`, which are
declared outside the executor package.  Construction fails if an edge
references a node that is neither the trigger nor a step; the outgoing
edges of a node are the workflow's edges leaving it, in declaration
order. -/
def NewGraph (trigger : String) (wf : Workflow) : Graph × Option GoError :=
  match wf.Edges.find?
      (fun ed => !(knownNode trigger wf ed.Outgoing && knownNode trigger wf ed.Incoming)) with
  | some ed =>
    ({ From := fun _ => [] },
      some (.new ("edge references an unknown node: " ++ ed.Outgoing ++ " -> " ++ ed.Incoming)))
  | none =>
    ({ From := fun n =>
        (wf.Edges.filter (fun ed => ed.Outgoing = n)).map
          (fun ed => { Outgoing := ⟨ed.Outgoing⟩, Incoming := ⟨ed.Incoming⟩, WorkflowEdge := ed }) },
      none)

/-- Package `inngest` with the graph builder of the spec. -/
def inngestPkg (trigger : String) : Inngest :=
  { TriggerName := trigger, NewGraph := NewGraph trigger }

/-! ## A concrete installation

A small store, action loader and set of drivers on which the executor can
be run: one step for each way an action can end. -/

/-- A store that keeps the saved outputs and errors and can be made
read-only, in which case every write fails. -/
structure Store where
  outputs : List (String × Output)
  errors : List (String × GoError)
  writable : Bool

/-- The trigger name used by the concrete installation. -/
def demoTrigger : String := "$trigger"

/-- A workflow with the edges T->A, A->B, A->C and further steps that are
not connected. -/
def demoWorkflow : Workflow :=
  { Steps := [⟨"A", "ok", none⟩, ⟨"B", "fail", none⟩, ⟨"C", "async", none⟩,
      ⟨"D", "crash", none⟩, ⟨"E", "missing", none⟩, ⟨"F", "nothing", none⟩,
      ⟨"G", "wasm-action", none⟩, ⟨"H", "async-fail", none⟩],
    Edges := [⟨demoTrigger, "A"⟩, ⟨"A", "B"⟩, ⟨"A", "C"⟩] }

/-- The state a store holds: a step is complete once it has an output and
no error. -/
def demoState (x : Store) : State :=
  { Workflow := (demoWorkflow, none),
    ActionComplete := fun n =>
      x.outputs.any (fun p => p.1 = n) && !x.errors.any (fun p => p.1 = n) }

/-- The state manager of the concrete installation. -/
def demoManager : Manager Store :=
  { Load := fun _ x => ((some (demoState x), none), x),
    SaveActionOutput := fun _ stepID output x =>
      if x.writable then (none, { x with outputs := (stepID, output) :: x.outputs })
      else (some (.new "store is read-only"), x),
    SaveActionError := fun _ stepID err x =>
      if x.writable then (none, { x with errors := (stepID, err) :: x.errors })
      else (some (.new "store is read-only"), x) }

/-- The action loader of the concrete installation: it fails for the
reference "missing", finds nothing for "nothing" and names a runtime type
for the others. -/
def demoLoader : ActionLoader Store :=
  { Load := fun dsn _ x =>
      if dsn = "missing" then ((none, some (.new "registry unreachable")), x)
      else if dsn = "nothing" then ((none, none), x)
      else if dsn = "wasm-action" then ((some ⟨dsn, "wasm"⟩, none), x)
      else ((some ⟨dsn, dsn⟩, none), x) }

/-- A driver that answers every call with the same result. -/
def constDriver (tag : String) (ret : Option (Response GoError) × Option GoError) :
    Driver Store :=
  { RuntimeType := tag, Execute := fun _ _ _ x => (ret, x) }

/-- The business error reported by the failing actions. -/
def demoFailure : GoError := .new "exit status 1"

/-- The registered drivers: a synchronous success, a business error, an
asynchronous acceptance, an infrastructure fault and an asynchronous
acceptance that also carries an error. -/
def demoDrivers : List (Driver Store) :=
  [constDriver "ok" (some ⟨false, [("result", "done")], none⟩, none),
   constDriver "fail" (some ⟨false, [("log", "boom")], some demoFailure⟩, none),
   constDriver "async" (some ⟨true, [], none⟩, none),
   constDriver "crash" (none, some (.new "connection refused")),
   constDriver "async-fail" (some ⟨true, [], some demoFailure⟩, none)]

/-- The registry holding the drivers under their runtime types. -/
def demoRegistry : List (String × Driver Store) :=
  demoDrivers.map (fun d => (d.RuntimeType, d))

/-- The executor of the concrete installation. -/
def demoExecutor : executor Store :=
  { sm := some demoManager, al := some demoLoader, runtimeDrivers := demoRegistry }

/-- The run used by the concrete installation. -/
def demoRun : Identifier := ⟨"wf", "run-1"⟩

/-- An empty writable store with an empty log. -/
def demoWorld : World Store := { ext := ⟨[], [], true⟩, log := [] }

/-- An empty read-only store with an empty log. -/
def frozenWorld : World Store := { ext := ⟨[], [], false⟩, log := [] }

/-- The calls made between two worlds of one execution. -/
def callsMade {σ : Type} (before after : World σ) : List Call :=
  after.log.drop before.log.length

/-- The errors of the failed writes, as `multierror.Append` collects
them. -/
def writeErrors (e1 e2 : Option GoError) : List GoError :=
  (match e1 with | none => [] | some a => a.flatten)
    ++ (match e2 with | none => [] | some c => c.flatten)

/-! ## What the options supply -/

/-- The state manager in effect after a list of options: the argument of
the last `WithStateManager` among them, or `init` when there is none. -/
def effectiveStateManager {σ : Type} (init : Option (Manager σ)) :
    List (ExecutorOpt σ) → Option (Manager σ)
  | [] => init
  | .WithStateManager sm :: opts => effectiveStateManager sm opts
  | _ :: opts => effectiveStateManager init opts

/-- The action loader in effect after a list of options: the argument of
the last `WithActionLoader` among them, or `init` when there is none. -/
def effectiveActionLoader {σ : Type} (init : Option (ActionLoader σ)) :
    List (ExecutorOpt σ) → Option (ActionLoader σ)
  | [] => init
  | .WithActionLoader al :: opts => effectiveActionLoader al opts
  | _ :: opts => effectiveActionLoader init opts

/-- All drivers supplied by the `WithRuntimeDrivers` options, in order;
`none` is a nil driver. -/
def suppliedDrivers {σ : Type} : List (ExecutorOpt σ) → List (Option (Driver σ))
  | [] => []
  | .WithRuntimeDrivers drivers :: opts => drivers ++ suppliedDrivers opts
  | _ :: opts => suppliedDrivers opts

/-- The drivers of a list that come before its first nil driver; all of
them when no driver is nil. -/
def leadingDrivers {σ : Type} : List (Option (Driver σ)) → List (Driver σ)
  | [] => []
  | none :: _ => []
  | some d :: rest => d :: leadingDrivers rest

/-- Whether no driver of a list is nil. -/
def allPresent {σ : Type} (ds : List (Option (Driver σ))) : Bool :=
  ds.all (fun d => d.isSome)

/-- The runtime types of the drivers supplied before the first nil driver,
in order; of all supplied drivers when none is nil. -/
def suppliedTags {σ : Type} (opts : List (ExecutorOpt σ)) : List String :=
  (leadingDrivers (suppliedDrivers opts)).map (fun d => d.RuntimeType)

/-- Whether the drivers `ds` can all be registered on top of the registry
of `m`: their runtime types are pairwise distinct and none is taken. -/
def registrable {σ : Type} (m : executor σ) (ds : List (Driver σ)) : Prop :=
  (ds.map (fun d => d.RuntimeType)).Nodup
    ∧ ∀ d ∈ ds, d.RuntimeType ∉ m.runtimeDrivers.map Prod.fst

/-- The executor `m` after the drivers `ds` have been registered. -/
def withDrivers {σ : Type} (m : executor σ) (ds : List (Driver σ)) : executor σ :=
  { m with runtimeDrivers := (ds.reverse.map (fun d => (d.RuntimeType, d))) ++ m.runtimeDrivers }

/-! ## Properties -/

/-- The calls made up to a world whose log extends the log of `w`. -/
theorem callsMade_append {σ : Type} (w : World σ) (x : σ) (calls : List Call) :
    callsMade w { ext := x, log := w.log ++ calls } = calls := by
  simp [callsMade]

/-- C6: a `from` that is neither the trigger nor the ClientID of a step
makes `Execute` return no edges and the error "unknown vertex: from"; the
only call made is the initial load of the state (no action loader, no
driver, no write to the store). -/
theorem Execute_unknown_vertex {σ : Type} (pkg : Inngest) (sm : Manager σ) (al : ActionLoader σ)
    (drivers : List (String × Driver σ)) (id : Identifier) (frm : String) (w : World σ)
    (s0 : State) (x1 : σ) (wf : Workflow)
    (hload : sm.Load id w.ext = ((some s0, none), x1))
    (hwf : s0.Workflow = (wf, none))
    (htrigger : frm ≠ pkg.TriggerName)
    (hsteps : ∀ s ∈ wf.Steps, s.ClientID ≠ frm) :
    (Execute pkg ⟨some sm, some al, drivers⟩ id frm w).1
        = .returned ([], some (.new ("unknown vertex: " ++ frm)))
      ∧ (Execute pkg ⟨some sm, some al, drivers⟩ id frm w).2.ext = x1
      ∧ callsMade w (Execute pkg ⟨some sm, some al, drivers⟩ id frm w).2
        = [Call.Load id (some s0, none)] := by
  have hfind : wf.Steps.find? (fun s => decide (s.ClientID = frm)) = none := by
    rw [List.find?_eq_none]
    intro s hs
    simpa using hsteps s hs
  simp [Execute, callLoad, hload, hwf, run, htrigger, hfind, callsMade]

/-- In the concrete installation, "Z" is no step: `Execute` reports it as
an unknown vertex after the initial load alone. -/
theorem Execute_unknown_vertex_witness :
    (Execute (inngestPkg demoTrigger) demoExecutor demoRun "Z" demoWorld).1
        = .returned ([], some (.new "unknown vertex: Z"))
      ∧ (Execute (inngestPkg demoTrigger) demoExecutor demoRun "Z" demoWorld).2.ext
        = demoWorld.ext
      ∧ callsMade demoWorld (Execute (inngestPkg demoTrigger) demoExecutor demoRun "Z" demoWorld).2
        = [Call.Load demoRun (some (demoState demoWorld.ext), none)] :=
  Execute_unknown_vertex (inngestPkg demoTrigger) demoManager demoLoader demoRegistry demoRun
    "Z" demoWorld (demoState demoWorld.ext) demoWorld.ext demoWorkflow
    (by rfl) (by rfl) (by decide) (by decide)

/-- C5: when the call to the selected driver returns an error, `Execute`
returns no edges and the error "error executing action: ..." wrapping the
driver's error; the calls made are the two loads of the state, the load of
the action and the driver call, so neither `SaveActionOutput` nor
`SaveActionError` is called, and the store is as the driver call left
it. -/
theorem Execute_driver_call_error {σ : Type} (pkg : Inngest) (sm : Manager σ)
    (al : ActionLoader σ) (drivers : List (String × Driver σ)) (id : Identifier) (frm : String)
    (w : World σ) (s0 : State) (x1 x2 x3 x4 : σ) (wf : Workflow) (step : Step)
    (defn : ActionVersion) (d : Driver σ) (st1 : Option State)
    (r : Option (Response GoError)) (err : GoError)
    (hload : sm.Load id w.ext = ((some s0, none), x1))
    (hwf : s0.Workflow = (wf, none))
    (htrigger : frm ≠ pkg.TriggerName)
    (hstep : wf.Steps.find? (fun s => decide (s.ClientID = frm)) = some step)
    (hal : al.Load step.DSN step.Version x1 = ((some defn, none), x2))
    (hdrv : lookupDriver drivers defn.RuntimeType = some d)
    (hreload : sm.Load id x2 = ((st1, none), x3))
    (hexec : d.Execute st1 defn step x3 = ((r, some err), x4)) :
    Execute pkg ⟨some sm, some al, drivers⟩ id frm w
        = (.returned ([], some (.wrap "error executing action: " err "")),
            { ext := x4,
              log := w.log ++ [Call.Load id (some s0, none), Call.ActionLoad step.DSN step.Version,
                Call.Load id (st1, none), Call.DriverExecute d.RuntimeType step] })
      ∧ ∀ c ∈ callsMade w (Execute pkg ⟨some sm, some al, drivers⟩ id frm w).2,
          c.isSave = false := by
  have h : Execute pkg ⟨some sm, some al, drivers⟩ id frm w
        = (.returned ([], some (.wrap "error executing action: " err "")),
            { ext := x4,
              log := w.log ++ [Call.Load id (some s0, none), Call.ActionLoad step.DSN step.Version,
                Call.Load id (st1, none), Call.DriverExecute d.RuntimeType step] }) := by
    simp [Execute, run, executeAction, callLoad, callActionLoad, callDriver, hload, hwf,
      htrigger, hstep, hal, hdrv, hreload, hexec]
  refine ⟨h, ?_⟩
  rw [h, callsMade_append]
  simp [Call.isSave]

/-- In the concrete installation, step D reaches a driver whose call
fails: `Execute` returns the wrapped error and writes nothing. -/
theorem Execute_driver_call_error_witness :
    Execute (inngestPkg demoTrigger) demoExecutor demoRun "D" demoWorld
        = (.returned ([], some (.wrap "error executing action: " (.new "connection refused") "")),
            { ext := demoWorld.ext,
              log := [Call.Load demoRun (some (demoState demoWorld.ext), none),
                Call.ActionLoad "crash" none,
                Call.Load demoRun (some (demoState demoWorld.ext), none),
                Call.DriverExecute "crash" ⟨"D", "crash", none⟩] })
      ∧ ∀ c ∈ callsMade demoWorld
            (Execute (inngestPkg demoTrigger) demoExecutor demoRun "D" demoWorld).2,
          c.isSave = false :=
  Execute_driver_call_error (inngestPkg demoTrigger) demoManager demoLoader
    demoRegistry demoRun "D" demoWorld
    (demoState demoWorld.ext) demoWorld.ext demoWorld.ext demoWorld.ext demoWorld.ext
    demoWorkflow ⟨"D", "crash", none⟩ ⟨"crash", "crash"⟩
    (constDriver "crash" (none, some (.new "connection refused")))
    (some (demoState demoWorld.ext)) none (.new "connection refused")
    (by rfl) (by rfl) (by decide) (by rfl) (by rfl) (by rfl) (by rfl) (by rfl)

/-- C10: when the action of the step cannot be resolved, `Execute` returns
no edges and the resolution error: "error loading action: ..." wrapping
the loader's error, "no action returned: DSN" when the loader returns no
definition, and an error wrapping `ErrNoRuntimeDriver` when no driver is
registered for the definition's runtime type.  In each case the calls made
are the initial load and the load of the action: no driver is invoked and
nothing is written. -/
theorem Execute_resolution_error {σ : Type} (pkg : Inngest) (sm : Manager σ)
    (al : ActionLoader σ) (drivers : List (String × Driver σ)) (id : Identifier) (frm : String)
    (w : World σ) (s0 : State) (x1 x2 : σ) (wf : Workflow) (step : Step)
    (defn : Option ActionVersion) (aerr : Option GoError)
    (hload : sm.Load id w.ext = ((some s0, none), x1))
    (hwf : s0.Workflow = (wf, none))
    (htrigger : frm ≠ pkg.TriggerName)
    (hstep : wf.Steps.find? (fun s => decide (s.ClientID = frm)) = some step)
    (hal : al.Load step.DSN step.Version x1 = ((defn, aerr), x2)) :
    ((∀ err, aerr = some err →
        (Execute pkg ⟨some sm, some al, drivers⟩ id frm w).1
          = .returned ([], some (.wrap "error loading action: " err "")))
      ∧ (aerr = none → defn = none →
        (Execute pkg ⟨some sm, some al, drivers⟩ id frm w).1
          = .returned ([], some (.new ("no action returned: " ++ step.DSN))))
      ∧ (∀ a, aerr = none → defn = some a → lookupDriver drivers a.RuntimeType = none →
        (Execute pkg ⟨some sm, some al, drivers⟩ id frm w).1
          = .returned ([], some (.wrap "" ErrNoRuntimeDriver
              (": " ++ "\x27" ++ a.RuntimeType ++ "\x27")))))
      ∧ ((aerr.isSome = true ∨ defn = none
            ∨ ∃ a, defn = some a ∧ lookupDriver drivers a.RuntimeType = none) →
          (Execute pkg ⟨some sm, some al, drivers⟩ id frm w).2
              = { ext := x2,
                  log := w.log ++ [Call.Load id (some s0, none),
                    Call.ActionLoad step.DSN step.Version] }
            ∧ (∀ c ∈ callsMade w (Execute pkg ⟨some sm, some al, drivers⟩ id frm w).2,
                c.isDriverExecute = false ∧ c.isSave = false)) := by
  refine ⟨⟨?_, ?_, ?_⟩, ?_⟩
  · intro err he
    subst he
    simp [Execute, run, executeAction, callLoad, callActionLoad, hload, hwf, htrigger, hstep,
      hal]
  · intro he hd
    subst he hd
    simp [Execute, run, executeAction, callLoad, callActionLoad, hload, hwf, htrigger, hstep,
      hal]
  · intro a he hd hl
    subst he hd
    simp [Execute, run, executeAction, callLoad, callActionLoad, hload, hwf, htrigger, hstep,
      hal, hl]
  · rintro (he | hd | ⟨a, hd, hl⟩)
    · obtain ⟨err, rfl⟩ := Option.isSome_iff_exists.mp he
      simp [Execute, run, executeAction, callLoad, callActionLoad, hload, hwf, htrigger,
        hstep, hal, callsMade, Call.isDriverExecute, Call.isSave]
    · subst hd
      cases aerr <;>
        simp [Execute, run, executeAction, callLoad, callActionLoad, hload, hwf, htrigger,
          hstep, hal, callsMade, Call.isDriverExecute, Call.isSave]
    · subst hd
      cases aerr <;>
        simp [Execute, run, executeAction, callLoad, callActionLoad, hload, hwf, htrigger,
          hstep, hal, hl, callsMade, Call.isDriverExecute, Call.isSave]

/-- In the concrete installation the three resolution failures occur for
the steps E (the loader fails), F (the loader finds nothing) and G (no
driver for the runtime type "wasm"). -/
theorem Execute_resolution_error_witness :
    (Execute (inngestPkg demoTrigger) demoExecutor demoRun "E" demoWorld).1
        = .returned ([], some (.wrap "error loading action: " (.new "registry unreachable") ""))
      ∧ (Execute (inngestPkg demoTrigger) demoExecutor demoRun "F" demoWorld).1
        = .returned ([], some (.new "no action returned: nothing"))
      ∧ (Execute (inngestPkg demoTrigger) demoExecutor demoRun "G" demoWorld).1
        = .returned ([], some (.wrap "" ErrNoRuntimeDriver ": \x27wasm\x27"))
      ∧ (∀ c ∈ callsMade demoWorld
            (Execute (inngestPkg demoTrigger) demoExecutor demoRun "G" demoWorld).2,
          c.isDriverExecute = false ∧ c.isSave = false) :=
  ⟨(Execute_resolution_error (inngestPkg demoTrigger) demoManager demoLoader demoRegistry
      demoRun "E" demoWorld (demoState demoWorld.ext) demoWorld.ext demoWorld.ext demoWorkflow
      ⟨"E", "missing", none⟩ none (some (.new "registry unreachable"))
      (by rfl) (by rfl) (by decide) (by rfl) (by rfl)).1.1 _ rfl,
   (Execute_resolution_error (inngestPkg demoTrigger) demoManager demoLoader demoRegistry
      demoRun "F" demoWorld (demoState demoWorld.ext) demoWorld.ext demoWorld.ext demoWorkflow
      ⟨"F", "nothing", none⟩ none none
      (by rfl) (by rfl) (by decide) (by rfl) (by rfl)).1.2.1 rfl rfl,
   (Execute_resolution_error (inngestPkg demoTrigger) demoManager demoLoader demoRegistry
      demoRun "G" demoWorld (demoState demoWorld.ext) demoWorld.ext demoWorld.ext demoWorkflow
      ⟨"G", "wasm-action", none⟩ (some ⟨"wasm-action", "wasm"⟩) none
      (by rfl) (by rfl) (by decide) (by rfl) (by rfl)).1.2.2 _ rfl rfl (by rfl),
   ((Execute_resolution_error (inngestPkg demoTrigger) demoManager demoLoader demoRegistry
      demoRun "G" demoWorld (demoState demoWorld.ext) demoWorld.ext demoWorld.ext demoWorkflow
      ⟨"G", "wasm-action", none⟩ (some ⟨"wasm-action", "wasm"⟩) none
      (by rfl) (by rfl) (by decide) (by rfl) (by rfl)).2
        (Or.inr (Or.inr ⟨_, rfl, by rfl⟩))).2⟩

/-- C1, as the code has it: when the selected driver returns a response
with `Scheduled = true`, the calls made are the two loads of the state,
the load of the action and the driver call, so neither `SaveActionOutput`
nor `SaveActionError` is called; and when that response carries no error,
`Execute` returns no edges and a nil error. -/
theorem Execute_async_accepted {σ : Type} (pkg : Inngest) (sm : Manager σ)
    (al : ActionLoader σ) (drivers : List (String × Driver σ)) (id : Identifier) (frm : String)
    (w : World σ) (s0 : State) (x1 x2 x3 x4 : σ) (wf : Workflow) (step : Step)
    (defn : ActionVersion) (d : Driver σ) (st1 : Option State) (resp : Response GoError)
    (hload : sm.Load id w.ext = ((some s0, none), x1))
    (hwf : s0.Workflow = (wf, none))
    (htrigger : frm ≠ pkg.TriggerName)
    (hstep : wf.Steps.find? (fun s => decide (s.ClientID = frm)) = some step)
    (hal : al.Load step.DSN step.Version x1 = ((some defn, none), x2))
    (hdrv : lookupDriver drivers defn.RuntimeType = some d)
    (hreload : sm.Load id x2 = ((st1, none), x3))
    (hexec : d.Execute st1 defn step x3 = ((some resp, none), x4))
    (hsched : resp.Scheduled = true) :
    (Execute pkg ⟨some sm, some al, drivers⟩ id frm w).2
        = { ext := x4,
            log := w.log ++ [Call.Load id (some s0, none), Call.ActionLoad step.DSN step.Version,
              Call.Load id (st1, none), Call.DriverExecute d.RuntimeType step] }
      ∧ (∀ c ∈ callsMade w (Execute pkg ⟨some sm, some al, drivers⟩ id frm w).2,
          c.isSave = false)
      ∧ (resp.Err = none →
          (Execute pkg ⟨some sm, some al, drivers⟩ id frm w).1 = .returned ([], none)) := by
  have h : (Execute pkg ⟨some sm, some al, drivers⟩ id frm w).2
        = { ext := x4,
            log := w.log ++ [Call.Load id (some s0, none), Call.ActionLoad step.DSN step.Version,
              Call.Load id (st1, none), Call.DriverExecute d.RuntimeType step] } := by
    cases hE : resp.Err <;>
      simp [Execute, run, executeAction, callLoad, callActionLoad, callDriver, hload, hwf,
        htrigger, hstep, hal, hdrv, hreload, hexec, hsched, hE]
  refine ⟨h, ?_, ?_⟩
  · rw [h, callsMade_append]
    simp [Call.isSave]
  · intro hE
    simp [Execute, run, executeAction, callLoad, callActionLoad, callDriver, hload, hwf,
      htrigger, hstep, hal, hdrv, hreload, hexec, hsched, hE]

/-- In the concrete installation step C is accepted asynchronously:
`Execute` returns no edges and no error and writes nothing. -/
theorem Execute_async_accepted_witness :
    (Execute (inngestPkg demoTrigger) demoExecutor demoRun "C" demoWorld).2
        = { ext := demoWorld.ext,
            log := [Call.Load demoRun (some (demoState demoWorld.ext), none),
              Call.ActionLoad "async" none,
              Call.Load demoRun (some (demoState demoWorld.ext), none),
              Call.DriverExecute "async" ⟨"C", "async", none⟩] }
      ∧ (∀ c ∈ callsMade demoWorld
            (Execute (inngestPkg demoTrigger) demoExecutor demoRun "C" demoWorld).2,
          c.isSave = false)
      ∧ (Execute (inngestPkg demoTrigger) demoExecutor demoRun "C" demoWorld).1
        = .returned ([], none) :=
  have h := Execute_async_accepted (inngestPkg demoTrigger) demoManager demoLoader demoRegistry
    demoRun "C" demoWorld (demoState demoWorld.ext) demoWorld.ext demoWorld.ext demoWorld.ext
    demoWorld.ext demoWorkflow ⟨"C", "async", none⟩ ⟨"async", "async"⟩
    (constDriver "async" (some ⟨true, [], none⟩, none)) (some (demoState demoWorld.ext))
    ⟨true, [], none⟩ (by rfl) (by rfl) (by decide) (by rfl) (by rfl) (by rfl) (by rfl) (by rfl)
    (by rfl)
  ⟨h.1, h.2.1, h.2.2 rfl⟩

/-- C1 fails as stated: in the concrete installation the driver of step H
returns, without a call error, a response with `Scheduled = true` that
also carries an error, and `Execute` returns that response as its error
instead of a nil error. -/
theorem scheduled_response_with_error_is_returned :
    (constDriver "async-fail" (some ⟨true, [], some demoFailure⟩, none)).Execute
        (some (demoState demoWorld.ext)) ⟨"async-fail", "async-fail"⟩ ⟨"H", "async-fail", none⟩
        demoWorld.ext
      = ((some ⟨true, [], some demoFailure⟩, none), demoWorld.ext)
    ∧ (Execute (inngestPkg demoTrigger) demoExecutor demoRun "H" demoWorld).1
      = .returned ([], some (.response ⟨true, [], some demoFailure⟩))
    ∧ (Execute (inngestPkg demoTrigger) demoExecutor demoRun "H" demoWorld).1
      ≠ .returned ([], none) := by
  refine ⟨rfl, rfl, ?_⟩
  have h : (Execute (inngestPkg demoTrigger) demoExecutor demoRun "H" demoWorld).1
      = .returned ([], some (.response ⟨true, [], some demoFailure⟩)) := rfl
  rw [h]
  simp

/-- C2: when the driver returns a synchronous response carrying an error
and both writes succeed, the store receives `SaveActionOutput` and then
`SaveActionError` for the step, whose ClientID is `from`, with exactly the
response's error, and `Execute` returns no edges and the response itself as
the error.  No call follows the second write: no children are computed. -/
theorem Execute_business_error {σ : Type} (pkg : Inngest) (sm : Manager σ)
    (al : ActionLoader σ) (drivers : List (String × Driver σ)) (id : Identifier) (frm : String)
    (w : World σ) (s0 : State) (x1 x2 x3 x4 x5 x6 : σ) (wf : Workflow) (step : Step)
    (defn : ActionVersion) (d : Driver σ) (st1 : Option State) (resp : Response GoError)
    (berr : GoError)
    (hload : sm.Load id w.ext = ((some s0, none), x1))
    (hwf : s0.Workflow = (wf, none))
    (htrigger : frm ≠ pkg.TriggerName)
    (hstep : wf.Steps.find? (fun s => decide (s.ClientID = frm)) = some step)
    (hal : al.Load step.DSN step.Version x1 = ((some defn, none), x2))
    (hdrv : lookupDriver drivers defn.RuntimeType = some d)
    (hreload : sm.Load id x2 = ((st1, none), x3))
    (hexec : d.Execute st1 defn step x3 = ((some resp, none), x4))
    (hsync : resp.Scheduled = false)
    (herr : resp.Err = some berr)
    (hout : sm.SaveActionOutput id step.ClientID resp.Output x4 = (none, x5))
    (hsave : sm.SaveActionError id step.ClientID berr x5 = (none, x6)) :
    Execute pkg ⟨some sm, some al, drivers⟩ id frm w
        = (.returned ([], some (.response resp)),
            { ext := x6,
              log := w.log ++ [Call.Load id (some s0, none), Call.ActionLoad step.DSN step.Version,
                Call.Load id (st1, none), Call.DriverExecute d.RuntimeType step,
                Call.SaveActionOutput id step.ClientID resp.Output,
                Call.SaveActionError id step.ClientID berr] })
      ∧ step.ClientID = frm := by
  constructor
  · simp [Execute, run, executeAction, callLoad, callActionLoad, callDriver,
      callSaveActionOutput, callSaveActionError, hload, hwf, htrigger, hstep, hal, hdrv,
      hreload, hexec, hsync, herr, hout, hsave]
  · simpa using List.find?_some hstep

/-- In the concrete installation step B fails with a business error: both
writes are made and `Execute` returns the response as the error. -/
theorem Execute_business_error_witness :
    Execute (inngestPkg demoTrigger) demoExecutor demoRun "B" demoWorld
        = (.returned ([], some (.response ⟨false, [("log", "boom")], some demoFailure⟩)),
            { ext := ⟨[("B", [("log", "boom")])], [("B", demoFailure)], true⟩,
              log := [Call.Load demoRun (some (demoState demoWorld.ext), none),
                Call.ActionLoad "fail" none,
                Call.Load demoRun (some (demoState demoWorld.ext), none),
                Call.DriverExecute "fail" ⟨"B", "fail", none⟩,
                Call.SaveActionOutput demoRun "B" [("log", "boom")],
                Call.SaveActionError demoRun "B" demoFailure] })
      ∧ (⟨"B", "fail", none⟩ : Step).ClientID = "B" :=
  Execute_business_error (inngestPkg demoTrigger) demoManager demoLoader demoRegistry
    demoRun "B" demoWorld (demoState demoWorld.ext) demoWorld.ext demoWorld.ext demoWorld.ext
    demoWorld.ext ⟨[("B", [("log", "boom")])], [], true⟩
    ⟨[("B", [("log", "boom")])], [("B", demoFailure)], true⟩
    demoWorkflow ⟨"B", "fail", none⟩ ⟨"fail", "fail"⟩
    (constDriver "fail" (some ⟨false, [("log", "boom")], some demoFailure⟩, none))
    (some (demoState demoWorld.ext)) ⟨false, [("log", "boom")], some demoFailure⟩ demoFailure
    (by rfl) (by rfl) (by decide) (by rfl) (by rfl) (by rfl) (by rfl) (by rfl) (by rfl) (by rfl)
    (by rfl) (by rfl)

/-- C3 fails as stated: in the concrete installation with a read-only
store, the driver of step B returns a business error and both writes fail;
the error `Execute` returns is the multierror of the two write errors
alone.  None of its members is the business error or the response
carrying it. -/
theorem write_failure_drops_business_error :
    (Execute (inngestPkg demoTrigger) demoExecutor demoRun "B" frozenWorld).1
        = .returned ([], some (.multierror
            [.new "store is read-only", .new "store is read-only"]))
      ∧ (∀ m ∈ [GoError.new "store is read-only", GoError.new "store is read-only"],
          m ≠ demoFailure ∧ m ≠ .response ⟨false, [("log", "boom")], some demoFailure⟩) := by
  refine ⟨rfl, ?_⟩
  intro m hm
  simp only [List.mem_cons, List.mem_singleton, List.not_mem_nil, or_false, or_self] at hm
  subst hm
  simp [demoFailure]

/-- C3, as the code has it: after a synchronous driver response, when a
write to the store fails, `executeAction` returns the response together
with a multierror made of the errors of the failed writes, in call order
(`SaveActionOutput`, then `SaveActionError` when the response carries an
error); `Execute` returns no edges and that multierror alone. -/
theorem Execute_write_failure {σ : Type} (pkg : Inngest) (sm : Manager σ)
    (al : ActionLoader σ) (drivers : List (String × Driver σ)) (id : Identifier) (frm : String)
    (w : World σ) (s0 : State) (x1 x2 x3 x4 x5 x6 : σ) (wf : Workflow) (step : Step)
    (defn : ActionVersion) (d : Driver σ) (st1 : Option State) (resp : Response GoError)
    (e1 e2 : Option GoError)
    (hload : sm.Load id w.ext = ((some s0, none), x1))
    (hwf : s0.Workflow = (wf, none))
    (htrigger : frm ≠ pkg.TriggerName)
    (hstep : wf.Steps.find? (fun s => decide (s.ClientID = frm)) = some step)
    (hal : al.Load step.DSN step.Version x1 = ((some defn, none), x2))
    (hdrv : lookupDriver drivers defn.RuntimeType = some d)
    (hreload : sm.Load id x2 = ((st1, none), x3))
    (hexec : d.Execute st1 defn step x3 = ((some resp, none), x4))
    (hsync : resp.Scheduled = false)
    (hout : sm.SaveActionOutput id step.ClientID resp.Output x4 = (e1, x5))
    (hsave : (match resp.Err with
        | none => (none, x5)
        | some berr => sm.SaveActionError id step.ClientID berr x5) = (e2, x6))
    (hfail : e1.isSome = true ∨ e2.isSome = true) :
    executeAction ⟨some sm, some al, drivers⟩ id step
          { ext := x1, log := w.log ++ [Call.Load id (some s0, none)] }
        = (.returned (some resp, some (.multierror (writeErrors e1 e2))),
            { ext := x6,
              log := w.log ++ [Call.Load id (some s0, none), Call.ActionLoad step.DSN step.Version,
                Call.Load id (st1, none), Call.DriverExecute d.RuntimeType step,
                Call.SaveActionOutput id step.ClientID resp.Output]
                ++ (match resp.Err with
                    | none => []
                    | some berr => [Call.SaveActionError id step.ClientID berr]) })
      ∧ Execute pkg ⟨some sm, some al, drivers⟩ id frm w
        = (.returned ([], some (.multierror (writeErrors e1 e2))),
            { ext := x6,
              log := w.log ++ [Call.Load id (some s0, none), Call.ActionLoad step.DSN step.Version,
                Call.Load id (st1, none), Call.DriverExecute d.RuntimeType step,
                Call.SaveActionOutput id step.ClientID resp.Output]
                ++ (match resp.Err with
                    | none => []
                    | some berr => [Call.SaveActionError id step.ClientID berr]) }) := by
  cases hE : resp.Err with
  | none =>
    rw [hE] at hsave
    simp only [Prod.mk.injEq] at hsave
    obtain ⟨rfl, rfl⟩ := hsave
    cases e1 with
    | none => simp at hfail
    | some a =>
      constructor <;>
      simp [Execute, run, executeAction, callLoad, callActionLoad, callDriver,
        callSaveActionOutput, hload, hwf, htrigger, hstep, hal, hdrv, hreload, hexec, hsync,
        hE, hout, writeErrors, multierrorAppend]
  | some berr =>
    rw [hE] at hsave
    dsimp only at hsave
    cases e1 with
    | none =>
      cases e2 with
      | none => simp at hfail
      | some c =>
        constructor <;>
        simp [Execute, run, executeAction, callLoad, callActionLoad, callDriver,
          callSaveActionOutput, callSaveActionError, hload, hwf, htrigger, hstep, hal, hdrv,
          hreload, hexec, hsync, hE, hout, hsave, writeErrors, multierrorAppend]
    | some a =>
      cases e2 with
      | none =>
        constructor <;>
        simp [Execute, run, executeAction, callLoad, callActionLoad, callDriver,
          callSaveActionOutput, callSaveActionError, hload, hwf, htrigger, hstep, hal, hdrv,
          hreload, hexec, hsync, hE, hout, hsave, writeErrors, multierrorAppend]
      | some c =>
        constructor <;>
        simp [Execute, run, executeAction, callLoad, callActionLoad, callDriver,
          callSaveActionOutput, callSaveActionError, hload, hwf, htrigger, hstep, hal, hdrv,
          hreload, hexec, hsync, hE, hout, hsave, writeErrors, multierrorAppend]

/-- In the concrete installation with a read-only store, both writes for
step B fail and `Execute` returns the two write errors. -/
theorem Execute_write_failure_witness :
    Execute (inngestPkg demoTrigger) demoExecutor demoRun "B" frozenWorld
        = (.returned ([], some (.multierror
              [.new "store is read-only", .new "store is read-only"])),
            { ext := frozenWorld.ext,
              log := [Call.Load demoRun (some (demoState frozenWorld.ext), none),
                Call.ActionLoad "fail" none,
                Call.Load demoRun (some (demoState frozenWorld.ext), none),
                Call.DriverExecute "fail" ⟨"B", "fail", none⟩,
                Call.SaveActionOutput demoRun "B" [("log", "boom")],
                Call.SaveActionError demoRun "B" demoFailure] }) :=
  (Execute_write_failure (inngestPkg demoTrigger) demoManager demoLoader demoRegistry
    demoRun "B" frozenWorld (demoState frozenWorld.ext) frozenWorld.ext frozenWorld.ext
    frozenWorld.ext frozenWorld.ext frozenWorld.ext frozenWorld.ext
    demoWorkflow ⟨"B", "fail", none⟩ ⟨"fail", "fail"⟩
    (constDriver "fail" (some ⟨false, [("log", "boom")], some demoFailure⟩, none))
    (some (demoState frozenWorld.ext)) ⟨false, [("log", "boom")], some demoFailure⟩
    (some (.new "store is read-only")) (some (.new "store is read-only"))
    (by rfl) (by rfl) (by decide) (by rfl) (by rfl) (by rfl) (by rfl) (by rfl) (by rfl) (by rfl)
    (by rfl) (Or.inl rfl)).2

/-- C4 at its failing input: in the concrete installation the driver of
step C returns a response with `Scheduled = true`; `Execute` returns no
edges and no error, and among the calls it made there is no write to the
store. -/
theorem scheduled_response_is_not_persisted :
    (constDriver "async" (some ⟨true, [], none⟩, none)).Execute
        (some (demoState demoWorld.ext)) ⟨"async", "async"⟩ ⟨"C", "async", none⟩ demoWorld.ext
      = ((some ⟨true, [], none⟩, none), demoWorld.ext)
    ∧ (Execute (inngestPkg demoTrigger) demoExecutor demoRun "C" demoWorld).1
      = .returned ([], none)
    ∧ (callsMade demoWorld
        (Execute (inngestPkg demoTrigger) demoExecutor demoRun "C" demoWorld).2).any Call.isSave
      = false :=
  ⟨rfl, rfl, rfl⟩

/-- When every edge can be traversed, the loop collects the workflow edge of
each, in order. -/
theorem collectFuture_all (pkg : Inngest) (state : Option State) (ges : List GraphEdge) :
    ∀ acc : List Edge,
      (∀ ge ∈ ges, canTraverseEdge pkg state ge = .returned (true, none)) →
      collectFuture pkg state ges acc
        = .returned (acc ++ ges.map (fun ge => ge.WorkflowEdge), none) := by
  induction ges with
  | nil => intro acc _; simp [collectFuture]
  | cons ge rest ih =>
    intro acc h
    have hge := h ge (List.mem_cons_self _ _)
    have hrest : ∀ g ∈ rest, canTraverseEdge pkg state g = .returned (true, none) :=
      fun g hg => h g (List.mem_cons_of_mem _ hg)
    simp [collectFuture, hge, ih _ hrest]

/-- The graph built from a workflow whose edges reference known nodes. -/
theorem NewGraph_wellFormed (trigger : String) (wf : Workflow)
    (hnodes : ∀ ed ∈ wf.Edges,
      knownNode trigger wf ed.Outgoing = true ∧ knownNode trigger wf ed.Incoming = true) :
    NewGraph trigger wf
      = ({ From := fun n =>
            (wf.Edges.filter (fun ed => ed.Outgoing = n)).map
              (fun ed =>
                { Outgoing := ⟨ed.Outgoing⟩, Incoming := ⟨ed.Incoming⟩, WorkflowEdge := ed }) },
          none) := by
  have hfind : wf.Edges.find?
      (fun ed => !(knownNode trigger wf ed.Outgoing && knownNode trigger wf ed.Incoming))
      = none := by
    rw [List.find?_eq_none]
    intro ed hed
    have := hnodes ed hed
    simp [this.1, this.2]
  unfold NewGraph
  rw [hfind]

/-- The frontier computed by `availabileChildren` over the graph builder of
the spec, when the state reloaded for the traversal reports the source
node as resolved. -/
theorem availabileChildren_resolved {σ : Type} (trigger : String) (sm : Manager σ)
    (al : ActionLoader σ) (drivers : List (String × Driver σ)) (wf : Workflow)
    (id : Identifier) (clientID : String) (s : State) (w : World σ) (st : Option State)
    (x : σ)
    (hnodes : ∀ ed ∈ wf.Edges,
      knownNode trigger wf ed.Outgoing = true ∧ knownNode trigger wf ed.Incoming = true)
    (hload : sm.Load id w.ext = ((st, none), x))
    (hres : clientID = trigger ∨ ∃ st2, st = some st2 ∧ st2.ActionComplete clientID = true) :
    (availabileChildren (inngestPkg trigger) ⟨some sm, some al, drivers⟩ wf id clientID s w).1
      = .returned (wf.Edges.filter (fun ed => ed.Outgoing = clientID), none) := by
  simp only [availabileChildren, inngestPkg, NewGraph_wellFormed trigger wf hnodes]
  by_cases hlen : (wf.Edges.filter (fun ed => decide (ed.Outgoing = clientID))) = []
  · simp [hlen]
  · have hlen2 : ¬ (List.map (fun ed : Edge =>
        ({ Outgoing := ⟨ed.Outgoing⟩, Incoming := ⟨ed.Incoming⟩, WorkflowEdge := ed } : GraphEdge))
        (wf.Edges.filter (fun ed => decide (ed.Outgoing = clientID)))).length = 0 := by
      simpa using hlen
    simp only [hlen2, if_false, callLoad, hload]
    rw [collectFuture_all]
    · simp only [List.nil_append, List.map_map]
      have hid : ((fun ge : GraphEdge => ge.WorkflowEdge) ∘ fun ed : Edge =>
          ({ Outgoing := ⟨ed.Outgoing⟩, Incoming := ⟨ed.Incoming⟩, WorkflowEdge := ed }
            : GraphEdge)) = fun ed => ed := by
        funext ed
        rfl
      rw [hid, List.map_id']
    · intro ge hge
      simp only [List.mem_map, List.mem_filter, decide_eq_true_eq] at hge
      obtain ⟨ed, ⟨_, hed⟩, rfl⟩ := hge
      rcases hres with hres | ⟨st2, rfl, hc⟩
      · simp [canTraverseEdge, hed, hres]
      · by_cases ht : clientID = trigger
        · simp [canTraverseEdge, hed, ht]
        · simp [canTraverseEdge, hed, ht, hc]

/-- A frontier returned by `run` without error is returned by `Execute`. -/
theorem Execute_of_run {σ : Type} (pkg : Inngest) (sm : Manager σ) (al : ActionLoader σ)
    (drivers : List (String × Driver σ)) (id : Identifier) (frm : String) (w : World σ)
    (s0 : State) (x1 : σ) (wf : Workflow) (next : List Edge)
    (hload : sm.Load id w.ext = ((some s0, none), x1))
    (hwf : s0.Workflow = (wf, none))
    (hrun : (run pkg ⟨some sm, some al, drivers⟩ wf id frm s0
        { ext := x1, log := w.log ++ [Call.Load id (some s0, none)] }).1
          = .returned (next, none)) :
    (Execute pkg ⟨some sm, some al, drivers⟩ id frm w).1 = .returned (next, none) := by
  simp only [Execute, callLoad, hload, hwf]
  generalize run pkg ⟨some sm, some al, drivers⟩ wf id frm s0
    { ext := x1, log := w.log ++ [Call.Load id (some s0, none)] } = r at hrun
  obtain ⟨o, w2⟩ := r
  simp only at hrun
  subst hrun
  rfl

/-- C7: over the graph builder of the spec and a workflow whose edges
reference known nodes, `Execute` returns a nil error and exactly the
workflow's edges leaving `from`, in declaration order, when `from` is the
trigger and the state loads, and when `from` is a step whose driver
returns a synchronous success, the write succeeds and the state reloaded
for the traversal reports the step complete. -/
theorem Execute_returns_outgoing_edges {σ : Type} (trigger : String) (sm : Manager σ) (al : ActionLoader σ)
    (drivers : List (String × Driver σ)) (id : Identifier) (w : World σ) (s0 : State) (x1 : σ)
    (wf : Workflow)
    (hload : sm.Load id w.ext = ((some s0, none), x1))
    (hwf : s0.Workflow = (wf, none))
    (hnodes : ∀ ed ∈ wf.Edges,
      knownNode trigger wf ed.Outgoing = true ∧ knownNode trigger wf ed.Incoming = true) :
    (∀ (st : Option State) (x2 : σ), sm.Load id x1 = ((st, none), x2) →
        (Execute (inngestPkg trigger) ⟨some sm, some al, drivers⟩ id trigger w).1
          = .returned (wf.Edges.filter (fun ed => ed.Outgoing = trigger), none))
      ∧ (∀ (frm : String) (step : Step) (defn : ActionVersion) (d : Driver σ)
          (st1 : Option State) (resp : Response GoError) (st2 : State) (x2 x3 x4 x5 x6 : σ),
          frm ≠ trigger →
          wf.Steps.find? (fun s => decide (s.ClientID = frm)) = some step →
          al.Load step.DSN step.Version x1 = ((some defn, none), x2) →
          lookupDriver drivers defn.RuntimeType = some d →
          sm.Load id x2 = ((st1, none), x3) →
          d.Execute st1 defn step x3 = ((some resp, none), x4) →
          resp.Scheduled = false →
          resp.Err = none →
          sm.SaveActionOutput id step.ClientID resp.Output x4 = (none, x5) →
          sm.Load id x5 = ((some st2, none), x6) →
          st2.ActionComplete frm = true →
          (Execute (inngestPkg trigger) ⟨some sm, some al, drivers⟩ id frm w).1
            = .returned (wf.Edges.filter (fun ed => ed.Outgoing = frm), none)) := by
  constructor
  · intro st x2 hreload
    apply Execute_of_run _ _ _ _ _ _ _ _ _ _ _ hload hwf
    have hrun : run (inngestPkg trigger) ⟨some sm, some al, drivers⟩ wf id trigger s0
        { ext := x1, log := w.log ++ [Call.Load id (some s0, none)] }
        = availabileChildren (inngestPkg trigger) ⟨some sm, some al, drivers⟩ wf id trigger s0
            { ext := x1, log := w.log ++ [Call.Load id (some s0, none)] } := by
      simp [run, inngestPkg]
    rw [hrun]
    exact availabileChildren_resolved trigger sm al drivers wf id trigger s0 _ st x2 hnodes
      hreload (Or.inl rfl)
  · intro frm step defn d st1 resp st2 x2 x3 x4 x5 x6 htrigger hstep hal hdrv hreload hexec
      hsync herr hout hfinal hcomplete
    apply Execute_of_run _ _ _ _ _ _ _ _ _ _ _ hload hwf
    have hrun : run (inngestPkg trigger) ⟨some sm, some al, drivers⟩ wf id frm s0
        { ext := x1, log := w.log ++ [Call.Load id (some s0, none)] }
        = availabileChildren (inngestPkg trigger) ⟨some sm, some al, drivers⟩ wf id frm s0
            { ext := x5,
              log := w.log ++ [Call.Load id (some s0, none),
                Call.ActionLoad step.DSN step.Version, Call.Load id (st1, none),
                Call.DriverExecute d.RuntimeType step,
                Call.SaveActionOutput id step.ClientID resp.Output] } := by
      simp [run, inngestPkg, executeAction, callLoad, callActionLoad, callDriver,
        callSaveActionOutput, htrigger, hstep, hal, hdrv, hreload, hexec, hsync, herr, hout]
    rw [hrun]
    exact availabileChildren_resolved trigger sm al drivers wf id frm s0 _ (some st2) x6 hnodes
      hfinal (Or.inr ⟨st2, rfl, hcomplete⟩)

/-- In the concrete installation, whose workflow has the edges T->A, A->B
and A->C, the frontier from the trigger is [T->A] and the frontier from A,
once its action has succeeded, is [A->B, A->C]. -/
theorem Execute_returns_outgoing_edges_witness :
    (Execute (inngestPkg demoTrigger) demoExecutor demoRun demoTrigger demoWorld).1
        = .returned ([⟨demoTrigger, "A"⟩], none)
      ∧ (Execute (inngestPkg demoTrigger) demoExecutor demoRun "A" demoWorld).1
        = .returned ([⟨"A", "B"⟩, ⟨"A", "C"⟩], none) :=
  have h := Execute_returns_outgoing_edges demoTrigger demoManager demoLoader demoRegistry demoRun demoWorld
    (demoState demoWorld.ext) demoWorld.ext demoWorkflow (by rfl) (by rfl) (by decide)
  ⟨h.1 (some (demoState demoWorld.ext)) demoWorld.ext (by rfl),
   h.2 "A" ⟨"A", "ok", none⟩ ⟨"ok", "ok"⟩
    (constDriver "ok" (some ⟨false, [("result", "done")], none⟩, none))
    (some (demoState demoWorld.ext)) ⟨false, [("result", "done")], none⟩
    (demoState ⟨[("A", [("result", "done")])], [], true⟩)
    demoWorld.ext demoWorld.ext demoWorld.ext ⟨[("A", [("result", "done")])], [], true⟩
    ⟨[("A", [("result", "done")])], [], true⟩
    (by decide) (by rfl) (by rfl) (by rfl) (by rfl) (by rfl) (by rfl) (by rfl) (by rfl) (by rfl)
    (by rfl)⟩

/-- Every edge the loop returns was collected before or comes from a graph
edge that leaves the trigger or a step the state reports complete. -/
theorem collectFuture_sources (pkg : Inngest) (state : Option State) (ges : List GraphEdge) :
    ∀ (acc edges : List Edge) (err : Option GoError),
      collectFuture pkg state ges acc = .returned (edges, err) →
      ∀ x ∈ edges, x ∈ acc ∨ ∃ ge ∈ ges, ge.WorkflowEdge = x ∧
        (ge.Outgoing.ID = pkg.TriggerName
          ∨ ∃ st, state = some st ∧ st.ActionComplete ge.Outgoing.ID = true) := by
  induction ges with
  | nil =>
    intro acc edges err h x hx
    simp only [collectFuture, Outcome.returned.injEq, Prod.mk.injEq] at h
    exact Or.inl (h.1 ▸ hx)
  | cons ge rest ih =>
    intro acc edges err h x hx
    by_cases ht : ge.Outgoing.ID = pkg.TriggerName
    · have hc : canTraverseEdge pkg state ge = .returned (true, none) := by
        simp [canTraverseEdge, ht]
      simp only [collectFuture, hc] at h
      rcases ih _ _ _ h x hx with hacc | ⟨g, hg, hgx, hsrc⟩
      · rcases List.mem_append.mp hacc with hacc | hnew
        · exact Or.inl hacc
        · refine Or.inr ⟨ge, List.mem_cons_self _ _, ?_, Or.inl ht⟩
          exact (List.mem_singleton.mp hnew).symm
      · exact Or.inr ⟨g, List.mem_cons_of_mem _ hg, hgx, hsrc⟩
    · cases state with
      | none => simp [collectFuture, canTraverseEdge, ht] at h
      | some st =>
        by_cases hc : st.ActionComplete ge.Outgoing.ID = true
        · have hcan : canTraverseEdge pkg (some st) ge = .returned (true, none) := by
            simp [canTraverseEdge, ht, hc]
          simp only [collectFuture, hcan] at h
          rcases ih _ _ _ h x hx with hacc | ⟨g, hg, hgx, hsrc⟩
          · rcases List.mem_append.mp hacc with hacc | hnew
            · exact Or.inl hacc
            · refine Or.inr ⟨ge, List.mem_cons_self _ _, ?_, Or.inr ⟨st, rfl, hc⟩⟩
              exact (List.mem_singleton.mp hnew).symm
          · exact Or.inr ⟨g, List.mem_cons_of_mem _ hg, hgx, hsrc⟩
        · have hcan : canTraverseEdge pkg (some st) ge = .returned (false, none) := by
            simp [canTraverseEdge, ht, hc]
          simp only [collectFuture, hcan] at h
          rcases ih _ _ _ h x hx with hacc | ⟨g, hg, hgx, hsrc⟩
          · exact Or.inl hacc
          · exact Or.inr ⟨g, List.mem_cons_of_mem _ hg, hgx, hsrc⟩

/-- Every edge returned by `availabileChildren` leaves the trigger or a step
that the state it loaded reports complete. -/
theorem availabileChildren_sources {σ : Type} (pkg : Inngest) (e : executor σ) (wf : Workflow)
    (id : Identifier) (clientID : String) (s : State) (w w2 : World σ) (edges : List Edge)
    (err : Option GoError)
    (hgraph : ∀ wf n, ∀ ge ∈ (pkg.NewGraph wf).1.From n,
      ge.Outgoing.ID = ge.WorkflowEdge.Outgoing)
    (hret : availabileChildren pkg e wf id clientID s w = (.returned (edges, err), w2)) :
    ∀ x ∈ edges, x.Outgoing = pkg.TriggerName
      ∨ ∃ st, w2.log.getLast? = some (Call.Load id (some st, none))
          ∧ st.ActionComplete x.Outgoing = true := by
  intro x hx
  unfold availabileChildren at hret
  split at hret
  · simp only [Prod.mk.injEq, Outcome.returned.injEq] at hret
    rw [← hret.1.1] at hx
    simp at hx
  · rename_i g hg
    have hgr : ∀ ge ∈ g.From clientID, ge.Outgoing.ID = ge.WorkflowEdge.Outgoing := by
      intro ge hge
      apply hgraph wf clientID
      rw [hg]
      exact hge
    simp only at hret
    split at hret
    · simp only [Prod.mk.injEq, Outcome.returned.injEq] at hret
      rw [← hret.1.1] at hx
      simp at hx
    · split at hret
      · simp at hret
      · rename_i sm _
        split at hret
        · simp only [Prod.mk.injEq, Outcome.returned.injEq] at hret
          rw [← hret.1.1] at hx
          simp at hx
        · rename_i state w1 hload
          simp only [Prod.mk.injEq] at hret
          obtain ⟨hcf, rfl⟩ := hret
          rcases collectFuture_sources pkg state _ _ _ _ hcf x hx with hacc | ⟨ge, hge, hgx, hsrc⟩
          · simp at hacc
          · have hout : ge.Outgoing.ID = x.Outgoing := by rw [hgr ge hge, hgx]
            rcases hsrc with ht | ⟨st, rfl, hc⟩
            · exact Or.inl (hout ▸ ht)
            · refine Or.inr ⟨st, ?_, hout ▸ hc⟩
              simp only [callLoad, Prod.mk.injEq] at hload
              obtain ⟨hr, rfl⟩ := hload
              simp [hr]

/-- Every edge returned by `run` leaves the trigger or a step that the state
loaded last reports complete. -/
theorem run_sources {σ : Type} (pkg : Inngest) (e : executor σ) (wf : Workflow)
    (id : Identifier) (clientID : String) (s : State) (w w2 : World σ) (edges : List Edge)
    (err : Option GoError)
    (hgraph : ∀ wf n, ∀ ge ∈ (pkg.NewGraph wf).1.From n,
      ge.Outgoing.ID = ge.WorkflowEdge.Outgoing)
    (hret : run pkg e wf id clientID s w = (.returned (edges, err), w2)) :
    ∀ x ∈ edges, x.Outgoing = pkg.TriggerName
      ∨ ∃ st, w2.log.getLast? = some (Call.Load id (some st, none))
          ∧ st.ActionComplete x.Outgoing = true := by
  unfold run at hret
  split at hret
  · split at hret
    · simp only [Prod.mk.injEq, Outcome.returned.injEq] at hret
      intro x hx
      rw [← hret.1.1] at hx
      simp at hx
    · split at hret
      · simp at hret
      · simp only [Prod.mk.injEq, Outcome.returned.injEq] at hret
        intro x hx
        rw [← hret.1.1] at hx
        simp at hx
      · simp at hret
      · split at hret
        · simp only [Prod.mk.injEq, Outcome.returned.injEq] at hret
          intro x hx
          rw [← hret.1.1] at hx
          simp at hx
        · split at hret
          · simp only [Prod.mk.injEq, Outcome.returned.injEq] at hret
            intro x hx
            rw [← hret.1.1] at hx
            simp at hx
          · exact availabileChildren_sources pkg e wf id clientID s _ w2 edges err hgraph hret
  · exact availabileChildren_sources pkg e wf id clientID s _ w2 edges err hgraph hret

/-- C8: every edge in a frontier returned by `Execute` leaves the trigger
or a step that the state loaded for the traversal (the last call of the
execution) reports as complete; the graph builder is any one whose edges
leave the node named by their workflow edge. -/
theorem Execute_frontier_sources {σ : Type} (pkg : Inngest) (e : executor σ) (id : Identifier)
    (frm : String) (w : World σ) (edges : List Edge) (err : Option GoError)
    (hgraph : ∀ wf n, ∀ ge ∈ (pkg.NewGraph wf).1.From n,
      ge.Outgoing.ID = ge.WorkflowEdge.Outgoing)
    (hret : (Execute pkg e id frm w).1 = .returned (edges, err)) :
    ∀ x ∈ edges, x.Outgoing = pkg.TriggerName
      ∨ ∃ st, (Execute pkg e id frm w).2.log.getLast? = some (Call.Load id (some st, none))
          ∧ st.ActionComplete x.Outgoing = true := by
  intro x hx
  unfold Execute at hret ⊢
  split at hret
  · simp at hret
  · split at hret
    · simp only [Outcome.returned.injEq, Prod.mk.injEq] at hret
      rw [← hret.1] at hx
      simp at hx
    · simp at hret
    · split at hret
      · simp only [Outcome.returned.injEq, Prod.mk.injEq] at hret
        rw [← hret.1] at hx
        simp at hx
      · rename_i sm hsm _ state w1 hload _ wf hwf
        split at hret
        · simp at hret
        · simp only [Outcome.returned.injEq, Prod.mk.injEq] at hret
          rw [← hret.1] at hx
          simp at hx
        · rename_i next w2 hrun
          simp only [Outcome.returned.injEq, Prod.mk.injEq] at hret
          rw [← hret.1] at hx
          simp only [hsm, hload, hwf, hrun]
          exact run_sources pkg e wf id frm state w1 w2 next none hgraph hrun x hx

/-- The graph edges of the spec leave the node named by their workflow edge. -/
theorem NewGraph_sources (trigger : String) (wf : Workflow) (n : String) :
    ∀ ge ∈ (NewGraph trigger wf).1.From n, ge.Outgoing.ID = ge.WorkflowEdge.Outgoing := by
  intro ge hge
  unfold NewGraph at hge
  split at hge
  · simp at hge
  · simp only [List.mem_map, List.mem_filter] at hge
    obtain ⟨ed, _, rfl⟩ := hge
    rfl

/-- In the concrete installation the frontier returned from A holds the
edges A->B and A->C, and the state loaded last reports A complete. -/
theorem Execute_frontier_sources_witness :
    ((⟨"A", "B"⟩ : Edge).Outgoing = demoTrigger
      ∨ ∃ st, (Execute (inngestPkg demoTrigger) demoExecutor demoRun "A" demoWorld).2.log.getLast?
            = some (Call.Load demoRun (some st, none))
          ∧ st.ActionComplete (⟨"A", "B"⟩ : Edge).Outgoing = true)
    ∧ ((⟨"A", "C"⟩ : Edge).Outgoing = demoTrigger
      ∨ ∃ st, (Execute (inngestPkg demoTrigger) demoExecutor demoRun "A" demoWorld).2.log.getLast?
            = some (Call.Load demoRun (some st, none))
          ∧ st.ActionComplete (⟨"A", "C"⟩ : Edge).Outgoing = true) :=
  have h := Execute_frontier_sources (inngestPkg demoTrigger) demoExecutor demoRun "A" demoWorld
    [⟨"A", "B"⟩, ⟨"A", "C"⟩] none (fun wf n => NewGraph_sources demoTrigger wf n) (by rfl)
  ⟨h ⟨"A", "B"⟩ (List.mem_cons_self _ _),
   h ⟨"A", "C"⟩ (List.mem_cons_of_mem _ (List.mem_cons_self _ _))⟩

/-- A lookup fails exactly when the runtime type is not a key of the map. -/
theorem lookupDriver_eq_none {σ : Type} (m : List (String × Driver σ)) (tag : String) :
    lookupDriver m tag = none ↔ tag ∉ m.map Prod.fst := by
  induction m with
  | nil => simp [lookupDriver]
  | cons p rest ih =>
    obtain ⟨k, d⟩ := p
    by_cases hk : k = tag
    · simp [lookupDriver, hk]
    · have hk2 : ¬ tag = k := fun h => hk h.symm
      simp [lookupDriver, hk, hk2, ih]

/-- A lookup in a map with distinct keys finds the driver stored under the key. -/
theorem lookupDriver_of_mem {σ : Type} (m : List (String × Driver σ)) (tag : String)
    (d : Driver σ) (hnodup : (m.map Prod.fst).Nodup) (hmem : (tag, d) ∈ m) :
    lookupDriver m tag = some d := by
  induction m with
  | nil => simp at hmem
  | cons p rest ih =>
    obtain ⟨k, d2⟩ := p
    simp only [List.map_cons, List.nodup_cons] at hnodup
    rcases List.mem_cons.mp hmem with heq | hrest
    · simp only [Prod.mk.injEq] at heq
      simp [lookupDriver, heq.1, heq.2]
    · have hk : k ≠ tag := by
        intro h
        apply hnodup.1
        rw [h]
        exact List.mem_map_of_mem Prod.fst hrest
      simp [lookupDriver, hk, ih hnodup.2 hrest]

/-- Drivers supplied in two batches can be registered exactly when the first
batch can and the second can on top of it. -/
theorem registrable_append {σ : Type} (m : executor σ) (ds ds2 : List (Driver σ)) :
    registrable m (ds ++ ds2) ↔ registrable m ds ∧ registrable (withDrivers m ds) ds2 := by
  simp only [registrable, withDrivers, List.map_append, List.nodup_append, List.mem_append,
    List.map_reverse, List.map_map, List.mem_reverse, List.mem_map, Function.comp,
    List.Disjoint]
  constructor
  · rintro ⟨⟨h1, h2, h3⟩, h4⟩
    refine ⟨⟨h1, fun d hd => h4 d (Or.inl hd)⟩, h2, ?_⟩
    intro d hd hmem
    rcases hmem with ⟨d1, hd1, heq⟩ | hm
    · exact h3 ⟨d1, hd1, rfl⟩ ⟨d, hd, heq.symm⟩
    · exact h4 d (Or.inr hd) hm
  · rintro ⟨⟨h1, h2⟩, h3, h4⟩
    refine ⟨⟨h1, h3, ?_⟩, ?_⟩
    · rintro t ⟨d1, hd1, rfl⟩ ⟨d, hd, heq⟩
      exact h4 d hd (Or.inl ⟨d1, hd1, heq.symm⟩)
    · rintro d (hd | hd)
      · exact h2 d hd
      · exact fun hm => h4 d hd (Or.inr hm)

/-- No driver can always be registered. -/
theorem registrable_nil {σ : Type} (m : executor σ) : registrable m [] := by
  simp [registrable]

/-- Registering no driver leaves the executor as it is. -/
theorem withDrivers_nil {σ : Type} (m : executor σ) : withDrivers m [] = m := by
  simp [withDrivers]

/-- Registering two batches of drivers one after the other registers their
concatenation. -/
theorem withDrivers_append {σ : Type} (m : executor σ) (ds ds2 : List (Driver σ)) :
    withDrivers (withDrivers m ds) ds2 = withDrivers m (ds ++ ds2) := by
  simp [withDrivers]

/-- A single driver can be registered exactly when its runtime type is not
taken. -/
theorem registrable_singleton {σ : Type} (m : executor σ) (d : Driver σ) :
    registrable m [d] ↔ lookupDriver m.runtimeDrivers d.RuntimeType = none := by
  rw [lookupDriver_eq_none]
  simp [registrable]

/-- A driver followed by others can be registered exactly when it can and
the others can on top of it. -/
theorem registrable_cons {σ : Type} (m : executor σ) (d : Driver σ) (ds : List (Driver σ)) :
    registrable m (d :: ds) ↔ registrable m [d] ∧ registrable (withDrivers m [d]) ds :=
  registrable_append m [d] ds

/-- Registering a driver on top of others registers them all. -/
theorem withDrivers_cons {σ : Type} (m : executor σ) (d : Driver σ) (ds : List (Driver σ)) :
    withDrivers (withDrivers m [d]) ds = withDrivers m (d :: ds) :=
  withDrivers_append m [d] ds

/-- The loop of `WithRuntimeDrivers` in terms of the drivers before the
first nil driver: it fails with `ErrRuntimeRegistered` when they cannot all
be registered, panics when they can and a nil driver follows, and otherwise
registers them all. -/
theorem registerDrivers_spec {σ : Type} (ds : List (Option (Driver σ))) :
    ∀ e : executor σ,
      (¬ registrable e (leadingDrivers ds) →
          ∃ e2, registerDrivers e ds = .returned (e2, some ErrRuntimeRegistered))
        ∧ (registrable e (leadingDrivers ds) → allPresent ds = false →
          registerDrivers e ds = .panicked)
        ∧ (registrable e (leadingDrivers ds) → allPresent ds = true →
          registerDrivers e ds = .returned (withDrivers e (leadingDrivers ds), none)) := by
  induction ds with
  | nil =>
    intro e
    refine ⟨fun h => absurd (registrable_nil e) h, fun _ h => ?_, fun _ _ => ?_⟩
    · simp [allPresent] at h
    · simp [registerDrivers, leadingDrivers, withDrivers_nil]
  | cons o rest ih =>
    intro e
    cases o with
    | none =>
      refine ⟨fun h => absurd (registrable_nil e) h, fun _ _ => ?_, fun _ h => ?_⟩
      · simp [registerDrivers]
      · simp [allPresent] at h
    | some d =>
      have hall : allPresent (some d :: rest) = allPresent rest := by
        simp [allPresent]
      have hlead : leadingDrivers (some d :: rest) = d :: leadingDrivers rest := rfl
      rw [hlead, hall, registrable_cons, registrable_singleton]
      cases hd : lookupDriver e.runtimeDrivers d.RuntimeType with
      | some d2 =>
        refine ⟨fun _ => ⟨e, ?_⟩, fun h => ?_, fun h => ?_⟩
        · simp [registerDrivers, hd]
        · simp at h
        · simp at h
      | none =>
        have hstep : registerDrivers e (some d :: rest)
            = registerDrivers (withDrivers e [d]) rest := by
          simp only [registerDrivers, hd]
          rfl
        rw [hstep]
        have h := ih (withDrivers e [d])
        refine ⟨fun hn => h.1 (fun hr => hn ⟨rfl, hr⟩), fun hr => h.2.1 hr.2, fun hr hp => ?_⟩
        rw [h.2.2 hr.2 hp, withDrivers_cons]

/-- The drivers before the first nil driver of two batches. -/
theorem leadingDrivers_append {σ : Type} (ds ds2 : List (Option (Driver σ))) :
    leadingDrivers (ds ++ ds2)
      = if allPresent ds then leadingDrivers ds ++ leadingDrivers ds2 else leadingDrivers ds := by
  induction ds with
  | nil => simp [leadingDrivers, allPresent]
  | cons o rest ih =>
    cases o with
    | none => simp [leadingDrivers, allPresent]
    | some d =>
      have hall : allPresent (some d :: rest) = allPresent rest := by
        simp [allPresent]
      rw [hall]
      show d :: leadingDrivers (rest ++ ds2) = _
      rw [ih]
      cases allPresent rest <;> simp [leadingDrivers]

/-- Two batches hold no nil driver exactly when neither does. -/
theorem allPresent_append {σ : Type} (ds ds2 : List (Option (Driver σ))) :
    allPresent (ds ++ ds2) = (allPresent ds && allPresent ds2) := by
  simp [allPresent, List.all_append]

/-- A list without nil driver consists of its leading drivers. -/
theorem mem_leadingDrivers {σ : Type} (ds : List (Option (Driver σ))) (d : Driver σ)
    (hall : allPresent ds = true) (hd : some d ∈ ds) : d ∈ leadingDrivers ds := by
  induction ds with
  | nil => simp at hd
  | cons o rest ih =>
    cases o with
    | none => simp [allPresent] at hall
    | some d2 =>
      have hrest : allPresent rest = true := by
        simpa [allPresent] using hall
      rcases List.mem_cons.mp hd with heq | hmem
      · simp only [Option.some.injEq] at heq
        simp [leadingDrivers, heq]
      · simp [leadingDrivers, ih hrest hmem]

/-- The loop over the options in terms of the drivers supplied before the
first nil driver: it fails with `ErrRuntimeRegistered` when they cannot all
be registered, panics when they can and a nil driver is supplied, and
otherwise ends in the two checks on the executor the options describe. -/
theorem applyOpts_spec {σ : Type} (opts : List (ExecutorOpt σ)) :
    ∀ m : executor σ,
      (¬ registrable m (leadingDrivers (suppliedDrivers opts)) →
          applyOpts m opts = .returned (none, some ErrRuntimeRegistered))
        ∧ (registrable m (leadingDrivers (suppliedDrivers opts)) →
          allPresent (suppliedDrivers opts) = false → applyOpts m opts = .panicked)
        ∧ (registrable m (leadingDrivers (suppliedDrivers opts)) →
          allPresent (suppliedDrivers opts) = true →
          applyOpts m opts
            = applyOpts
                { sm := effectiveStateManager m.sm opts,
                  al := effectiveActionLoader m.al opts,
                  runtimeDrivers :=
                    (withDrivers m (leadingDrivers (suppliedDrivers opts))).runtimeDrivers }
                []) := by
  induction opts with
  | nil =>
    intro m
    refine ⟨fun h => absurd (registrable_nil m) h, fun _ h => ?_, fun _ _ => ?_⟩
    · simp [suppliedDrivers, allPresent] at h
    · simp [suppliedDrivers, leadingDrivers, effectiveStateManager, effectiveActionLoader,
        withDrivers_nil]
  | cons o opts ih =>
    intro m
    cases o with
    | WithActionLoader al =>
      have hstep : applyOpts m (.WithActionLoader al :: opts)
          = applyOpts { m with al := al } opts := by
        simp [applyOpts, ExecutorOpt.apply]
      have hreg : ∀ ds, registrable ({ m with al := al } : executor σ) ds ↔ registrable m ds :=
        fun ds => Iff.rfl
      rw [hstep]
      simp only [suppliedDrivers, effectiveStateManager, effectiveActionLoader]
      have h := ih ({ m with al := al } : executor σ)
      refine ⟨fun hn => h.1 ((hreg _).not.mpr hn), fun hr hp => h.2.1 ((hreg _).mpr hr) hp,
        fun hr hp => ?_⟩
      rw [h.2.2 ((hreg _).mpr hr) hp]
      rfl
    | WithStateManager sm =>
      have hstep : applyOpts m (.WithStateManager sm :: opts)
          = applyOpts { m with sm := sm } opts := by
        simp [applyOpts, ExecutorOpt.apply]
      have hreg : ∀ ds, registrable ({ m with sm := sm } : executor σ) ds ↔ registrable m ds :=
        fun ds => Iff.rfl
      rw [hstep]
      simp only [suppliedDrivers, effectiveStateManager, effectiveActionLoader]
      have h := ih ({ m with sm := sm } : executor σ)
      refine ⟨fun hn => h.1 ((hreg _).not.mpr hn), fun hr hp => h.2.1 ((hreg _).mpr hr) hp,
        fun hr hp => ?_⟩
      rw [h.2.2 ((hreg _).mpr hr) hp]
      rfl
    | WithRuntimeDrivers ds =>
      have hr := registerDrivers_spec ds m
      simp only [suppliedDrivers, effectiveStateManager, effectiveActionLoader,
        leadingDrivers_append, allPresent_append]
      by_cases h1 : registrable m (leadingDrivers ds)
      · cases hp : allPresent ds with
        | false =>
          have hstep : applyOpts m (.WithRuntimeDrivers ds :: opts) = .panicked := by
            simp [applyOpts, ExecutorOpt.apply, hr.2.1 h1 hp]
          rw [hstep]
          simp [h1]
        | true =>
          have hstep : applyOpts m (.WithRuntimeDrivers ds :: opts)
              = applyOpts (withDrivers m (leadingDrivers ds)) opts := by
            simp [applyOpts, ExecutorOpt.apply, hr.2.2 h1 hp]
          rw [hstep]
          simp only [if_true, Bool.true_and, registrable_append]
          have h := ih (withDrivers m (leadingDrivers ds))
          refine ⟨fun hn => h.1 (fun h2 => hn ⟨h1, h2⟩), fun hr2 hp2 => h.2.1 hr2.2 hp2,
            fun hr2 hp2 => ?_⟩
          rw [h.2.2 hr2.2 hp2, withDrivers_append]
          rfl
      · obtain ⟨e2, he2⟩ := hr.1 h1
        have hstep : applyOpts m (.WithRuntimeDrivers ds :: opts)
            = .returned (none, some ErrRuntimeRegistered) := by
          simp [applyOpts, ExecutorOpt.apply, he2]
        have hnot : ¬ registrable m
            (if allPresent ds = true then
              leadingDrivers ds ++ leadingDrivers (suppliedDrivers opts)
            else leadingDrivers ds) := by
          split
          · exact fun h => h1 ((registrable_append _ _ _).mp h).1
          · exact h1
        rw [hstep]
        exact ⟨fun _ => rfl, fun h => absurd h hnot, fun h => absurd h hnot⟩

/-- The result of `NewExecutor` in terms of what the options supply. -/
theorem NewExecutor_eq {σ : Type} (opts : List (ExecutorOpt σ)) :
    (¬ (suppliedTags opts).Nodup →
        NewExecutor opts = .returned (none, some ErrRuntimeRegistered))
      ∧ ((suppliedTags opts).Nodup → allPresent (suppliedDrivers opts) = false →
        NewExecutor opts = .panicked)
      ∧ ((suppliedTags opts).Nodup → allPresent (suppliedDrivers opts) = true →
          NewExecutor opts
            = applyOpts
                { sm := effectiveStateManager none opts,
                  al := effectiveActionLoader none opts,
                  runtimeDrivers :=
                    (leadingDrivers (suppliedDrivers opts)).reverse.map
                      (fun d => (d.RuntimeType, d)) } []) := by
  have hreg : registrable ({ sm := none, al := none, runtimeDrivers := [] } : executor σ)
      (leadingDrivers (suppliedDrivers opts)) ↔ (suppliedTags opts).Nodup := by
    simp [registrable, suppliedTags]
  have h := applyOpts_spec opts ({ sm := none, al := none, runtimeDrivers := [] } : executor σ)
  refine ⟨fun hn => h.1 (hreg.not.mpr hn), fun hn hp => h.2.1 (hreg.mpr hn) hp,
    fun hn hp => ?_⟩
  have h2 := h.2.2 (hreg.mpr hn) hp
  simp only [withDrivers, List.append_nil] at h2
  exact h2

/-- C9 fails as stated: a non-nil state manager is supplied, a non-nil
action loader is supplied, no driver is nil and no two drivers share a
runtime type, yet a later `WithStateManager(nil)` replaces the state
manager and `NewExecutor` returns no executor and `ErrNoStateManager`. -/
theorem later_nil_state_manager_wins :
    (ExecutorOpt.WithStateManager (some demoManager)
        ∈ [ExecutorOpt.WithStateManager (some demoManager), .WithStateManager none,
            .WithActionLoader (some demoLoader)])
      ∧ (ExecutorOpt.WithActionLoader (some demoLoader)
        ∈ [ExecutorOpt.WithStateManager (some demoManager), .WithStateManager none,
            .WithActionLoader (some demoLoader)])
      ∧ allPresent (suppliedDrivers [ExecutorOpt.WithStateManager (some demoManager),
            .WithStateManager none, .WithActionLoader (some demoLoader)]) = true
      ∧ (suppliedTags [ExecutorOpt.WithStateManager (some demoManager), .WithStateManager none,
            .WithActionLoader (some demoLoader)]).Nodup
      ∧ NewExecutor [ExecutorOpt.WithStateManager (some demoManager), .WithStateManager none,
            .WithActionLoader (some demoLoader)]
        = .returned (none, some ErrNoStateManager) := by
  refine ⟨List.mem_cons_self _ _, ?_, rfl, ?_, rfl⟩
  · exact List.mem_cons_of_mem _ (List.mem_cons_of_mem _ (List.mem_cons_self _ _))
  · simp [suppliedTags, suppliedDrivers, leadingDrivers]

/-- With a state manager and an action loader in place, a nil driver makes
`NewExecutor` panic: it returns neither an executor nor an error. -/
theorem NewExecutor_nil_driver_panics :
    NewExecutor [ExecutorOpt.WithStateManager (some demoManager),
        .WithActionLoader (some demoLoader), .WithRuntimeDrivers [none]]
      = .panicked :=
  rfl

/-- The options of the concrete installation yield its executor, with the
drivers registered in reverse order of supply. -/
theorem NewExecutor_demo :
    NewExecutor [ExecutorOpt.WithStateManager (some demoManager),
        .WithActionLoader (some demoLoader), .WithRuntimeDrivers (demoDrivers.map some)]
      = .returned (some ⟨some demoManager, some demoLoader, demoRegistry.reverse⟩, none) :=
  rfl

/-- C9, as the code has it: `NewExecutor` returns an executor and a nil
error exactly when no supplied driver is nil, the supplied drivers have
pairwise distinct runtime types, the last `WithStateManager` option carries
a non-nil state manager and the last `WithActionLoader` option carries a
non-nil action loader.  It panics exactly when a nil driver is supplied and
the drivers supplied before it have pairwise distinct runtime types.
Otherwise it returns no executor and `ErrRuntimeRegistered` exactly when
two drivers (supplied before any nil driver) share a runtime type, else
`ErrNoStateManager` exactly when no state manager is in effect, else
`ErrNoActionLoader`.  On success the executor holds the state manager and
action loader in effect and its registry maps the runtime type of each
supplied driver to that driver. -/
theorem NewExecutor_succeeds_iff {σ : Type} (opts : List (ExecutorOpt σ)) :
    ((∃ e, NewExecutor opts = .returned (some e, none)) ↔
        allPresent (suppliedDrivers opts) = true ∧ (suppliedTags opts).Nodup
          ∧ (effectiveStateManager none opts).isSome = true
          ∧ (effectiveActionLoader none opts).isSome = true)
      ∧ (NewExecutor opts = .panicked ↔
          (suppliedTags opts).Nodup ∧ allPresent (suppliedDrivers opts) = false)
      ∧ (NewExecutor opts = .returned (none, some ErrRuntimeRegistered) ↔
          ¬ (suppliedTags opts).Nodup)
      ∧ (NewExecutor opts = .returned (none, some ErrNoStateManager) ↔
          (suppliedTags opts).Nodup ∧ allPresent (suppliedDrivers opts) = true
            ∧ effectiveStateManager none opts = none)
      ∧ (NewExecutor opts = .returned (none, some ErrNoActionLoader) ↔
          (suppliedTags opts).Nodup ∧ allPresent (suppliedDrivers opts) = true
            ∧ (effectiveStateManager none opts).isSome = true
            ∧ effectiveActionLoader none opts = none)
      ∧ (∀ e err, NewExecutor opts = .returned (some e, err) →
          err = none ∧ e.sm = effectiveStateManager none opts
            ∧ e.al = effectiveActionLoader none opts
            ∧ ∀ d, some d ∈ suppliedDrivers opts →
                lookupDriver e.runtimeDrivers d.RuntimeType = some d) := by
  by_cases hn : (suppliedTags opts).Nodup
  · cases hp : allPresent (suppliedDrivers opts) with
    | false =>
      have h := (NewExecutor_eq opts).2.1 hn hp
      simp [h, hn]
    | true =>
      have h := (NewExecutor_eq opts).2.2 hn hp
      cases hsm : effectiveStateManager none opts with
      | none =>
        rw [hsm] at h
        simp [h, applyOpts, hn, ErrNoStateManager, ErrRuntimeRegistered, ErrNoActionLoader]
      | some sm =>
        rw [hsm] at h
        cases hal : effectiveActionLoader none opts with
        | none =>
          rw [hal] at h
          simp [h, applyOpts, hn, ErrNoStateManager, ErrRuntimeRegistered, ErrNoActionLoader]
        | some al =>
          rw [hal] at h
          have hlook : ∀ d, some d ∈ suppliedDrivers opts →
              lookupDriver
                ((leadingDrivers (suppliedDrivers opts)).reverse.map
                  (fun d => (d.RuntimeType, d))) d.RuntimeType = some d := by
            intro d hd
            apply lookupDriver_of_mem
            · have : List.map Prod.fst
                  (List.map (fun d : Driver σ => (d.RuntimeType, d))
                    (leadingDrivers (suppliedDrivers opts)).reverse)
                  = (suppliedTags opts).reverse := by
                simp [suppliedTags, List.map_reverse, Function.comp]
              rw [this]
              exact List.nodup_reverse.mpr hn
            · exact List.mem_map.mpr
                ⟨d, List.mem_reverse.mpr (mem_leadingDrivers _ d hp hd), rfl⟩
          refine ⟨?_, ?_, ?_, ?_, ?_, ?_⟩
          · simp [h, applyOpts, hn]
          · simp [h, applyOpts]
          · simp [h, applyOpts, hn]
          · simp [h, applyOpts]
          · simp [h, applyOpts]
          · intro e err he
            rw [h] at he
            simp only [applyOpts, Option.isNone_some, Bool.false_eq_true, if_false,
              Outcome.returned.injEq, Prod.mk.injEq, Option.some.injEq] at he
            obtain ⟨rfl, rfl⟩ := he
            exact ⟨rfl, rfl, rfl, hlook⟩
  · have h := (NewExecutor_eq opts).1 hn
    simp [h, hn, ErrNoStateManager, ErrRuntimeRegistered, ErrNoActionLoader]

end Executor
